import Mathlib

/-!
A shallow embedding of the `data_buffer` Rust crate (`src/lib.rs` and
`src/traits.rs`) and proofs about it.

The crate's `DataBuffer` stores elements of a runtime-chosen type as raw
bytes (`Vec<u8>`), together with the byte size of one element
(`element_size`) and a `TypeId` token (`element_type_id`).  We model:

* a Rust element type `T` as an `RType`: its `TypeId` token (a `Nat`) and
  its `size_of` in bytes;
* a typed value of `T` as its byte representation, a `List Nat` whose
  length is `T`'s size (theorems carry this as a well-formedness
  hypothesis where it matters);
* a `Vec<T>` as a `List (List Nat)` of such byte representations;
* the byte store `Vec<u8>` as a `List Nat`;
* a Rust panic (a failed `assert!`) as `none` in an `Option` result;
* an `&mut self`-mutating method as a state transformer
  `DataBuffer → DataBuffer × result`, where on the failure path the
  returned state equals the input state (the code returns `None` without
  touching `self`).

Capacity (`Vec::capacity`, `reserve`) is not modelled: it never affects
the observable contents, length, element size or type token.
-/

namespace DataBufferModel

/-- A concrete Rust element type as the buffer API sees it: its `TypeId`
token (`tid`, models `TypeId::of::<T>()`) and its byte size (`size`,
models `size_of::<T>()`). -/
structure RType where
  tid : Nat
  size : Nat
deriving DecidableEq, Repr

/-- Model of the `DataBuffer` struct from `src/lib.rs`: raw byte data,
the byte size of one element, and the `TypeId` token of the element
type. -/
structure DataBuffer where
  data : List Nat
  element_size : Nat
  element_type_id : Nat
deriving DecidableEq, Repr

/-- Models `DataBuffer::len`: number of elements, the byte length divided by the
element size (integer division, exact under the buffer invariant). -/
def DataBuffer.len (b : DataBuffer) : Nat :=
  b.data.length / b.element_size

/-- Models `DataBuffer::as_bytes`: the raw byte storage. -/
def DataBuffer.as_bytes (b : DataBuffer) : List Nat :=
  b.data

/-- Models `DataBuffer::is_empty`. -/
def DataBuffer.is_empty (b : DataBuffer) : Bool :=
  b.data.isEmpty

/-- Models `DataBuffer::with_type::<T>()`: empty buffer typed by `T`.  The
`assert_ne!(element_size, 0)` panic is modelled by returning `none`. -/
def with_type (t : RType) : Option DataBuffer :=
  if t.size = 0 then none
  else some ⟨[], t.size, t.tid⟩

/-- Models `DataBuffer::with_buffer_type(other)`: empty buffer with `other`'s
element size and type token. -/
def with_buffer_type (other : DataBuffer) : DataBuffer :=
  ⟨[], other.element_size, other.element_type_id⟩

/-- Models `DataBuffer::with_capacity::<T>(n)`: like `with_type` (capacity is
not modelled; it never affects observable state). -/
def with_capacity (t : RType) (_n : Nat) : Option DataBuffer :=
  if t.size = 0 then none
  else some ⟨[], t.size, t.tid⟩

/-- Models `DataBuffer::from_vec(vec)`: takes the vector's elements as raw
bytes.  The byte store is the concatenation of the elements' byte
representations; `assert_ne!(element_size, 0)` is modelled by `none`. -/
def from_vec (t : RType) (v : List (List Nat)) : Option DataBuffer :=
  if t.size = 0 then none
  else some ⟨v.flatten, t.size, t.tid⟩

/-- Models `DataBuffer::with_size(n, def)`: `from_vec(vec![def; n])`. -/
def with_size (t : RType) (n : Nat) (def_val : List Nat) : Option DataBuffer :=
  from_vec t (List.replicate n def_val)

/-- Models `DataBuffer::from_slice(slice)`: clones the slice into a vector and
calls `from_vec`. -/
def from_slice (t : RType) (s : List (List Nat)) : Option DataBuffer :=
  from_vec t s

/-- Models `DataBuffer::check_ref::<T>()`: `none` when the requested type token
differs from the stored one, otherwise the buffer itself. -/
def check_ref (t : RType) (b : DataBuffer) : Option DataBuffer :=
  if t.tid ≠ b.element_type_id then none else some b

/-- Reads `n` consecutive `s`-byte chunks from a byte list: the model of
`slice::from_raw_parts(ptr as *const T, n)`, which reinterprets the
bytes as `n` values of the `s`-byte type `T`. -/
def readChunks (s : Nat) : Nat → List Nat → List (List Nat)
  | 0, _ => []
  | n + 1, l => l.take s :: readChunks s n (l.drop s)

/-- Models `DataBuffer::as_slice::<T>()`: after the token check, the byte store
viewed as `self.len()` elements of `T`. -/
def as_slice (t : RType) (b : DataBuffer) : Option (List (List Nat)) :=
  if t.tid = b.element_type_id then some (readChunks t.size b.len b.data)
  else none

/-- Models `DataBuffer::as_mut_slice::<T>()`: same view as `as_slice` (obtaining
the mutable view does not itself mutate the buffer). -/
def as_mut_slice (t : RType) (b : DataBuffer) : Option (List (List Nat)) :=
  if t.tid = b.element_type_id then some (readChunks t.size b.len b.data)
  else none

/-- Models `DataBuffer::iter::<T>()`: the typed slice's iterator, modelled as the
list of elements it yields. -/
def iter (t : RType) (b : DataBuffer) : Option (List (List Nat)) :=
  as_slice t b

/-- Models `DataBuffer::iter_mut::<T>()`: like `iter` (obtaining the iterator
does not itself mutate the buffer). -/
def iter_mut (t : RType) (b : DataBuffer) : Option (List (List Nat)) :=
  as_mut_slice t b

/-- Models `DataBuffer::into_vec::<T>()`: after the token check,
`reinterpret_into_vec` reinterprets the whole byte store as a vector of
`T`, with `data.len() / size_of::<T>()` elements. -/
def into_vec (t : RType) (b : DataBuffer) : Option (List (List Nat)) :=
  if t.tid = b.element_type_id then
    some (readChunks t.size (b.data.length / t.size) b.data)
  else none

/-- Models `DataBuffer::get::<T>(i)`: the code first runs `assert!(i < self.len())`
(modelled as the outer `none` = panic), then `check_ref` (`some none` =
soft type mismatch), then reads the `size_of::<T>()` bytes at byte offset
`i * size_of::<T>()`. -/
def get (t : RType) (i : Nat) (b : DataBuffer) : Option (Option (List Nat)) :=
  if i < b.len then
    if t.tid = b.element_type_id then
      some (some ((b.data.drop (i * t.size)).take t.size))
    else some none
  else none

/-- Models `DataBuffer::get_ref::<T>(i)`: same access path as `get`. -/
def get_ref (t : RType) (i : Nat) (b : DataBuffer) : Option (Option (List Nat)) :=
  if i < b.len then
    if t.tid = b.element_type_id then
      some (some ((b.data.drop (i * t.size)).take t.size))
    else some none
  else none

/-- Models `DataBuffer::get_mut::<T>(i)`: same access path as `get` (obtaining
the mutable reference does not itself mutate the buffer). -/
def get_mut (t : RType) (i : Nat) (b : DataBuffer) : Option (Option (List Nat)) :=
  if i < b.len then
    if t.tid = b.element_type_id then
      some (some ((b.data.drop (i * t.size)).take t.size))
    else some none
  else none

/-- Models `DataBuffer::push_bytes(bytes)`: appends iff the byte slice's length
EQUALS `element_size`; otherwise the buffer is unmodified and the flag is
`false` (the code returns `None`). -/
def push_bytes (bytes : List Nat) (b : DataBuffer) : DataBuffer × Bool :=
  if bytes.length = b.element_size then
    ({ b with data := b.data ++ bytes }, true)
  else (b, false)

/-- Models `DataBuffer::extend_bytes(bytes)`: appends iff the byte slice's
length is a multiple of `element_size`. -/
def extend_bytes (bytes : List Nat) (b : DataBuffer) : DataBuffer × Bool :=
  if bytes.length % b.element_size = 0 then
    ({ b with data := b.data ++ bytes }, true)
  else (b, false)

/-- Models `DataBuffer::append_bytes(bytes: &mut Vec<u8>)`: moves the source
vector's bytes into the buffer iff their length is a multiple of
`element_size`; the result carries the new buffer, the new state of the
source vector (emptied on success, untouched on failure) and the success
flag. -/
def append_bytes (bytes : List Nat) (b : DataBuffer) :
    (DataBuffer × List Nat) × Bool :=
  if bytes.length % b.element_size = 0 then
    (({ b with data := b.data ++ bytes }, []), true)
  else ((b, bytes), false)

/-- Models `DataBuffer::push::<T>(element)`: `check_ref` then `push_bytes` on the
element's `size_of::<T>()` bytes (`x` is the element's byte
representation; theorems carry `x.length = t.size`). -/
def push (t : RType) (x : List Nat) (b : DataBuffer) : DataBuffer × Bool :=
  if t.tid = b.element_type_id then push_bytes x b
  else (b, false)

/-- Models `DataBuffer::clear()`: drops the bytes, keeps element size and
token. -/
def clear (b : DataBuffer) : DataBuffer :=
  { b with data := [] }

/-- Models `DataBuffer::fill(def)`: via `iter_mut` overwrites each of the
`self.len()` elements (stride `size_of::<T>()` bytes) with `def`'s bytes;
bytes past `len * size_of::<T>()` survive (none under the invariant). -/
def fill (t : RType) (def_val : List Nat) (b : DataBuffer) : DataBuffer × Bool :=
  if t.tid = b.element_type_id then
    ({ b with data := (List.replicate b.len def_val).flatten ++ b.data.drop (b.len * t.size) },
      true)
  else (b, false)

/-- Models `Vec::resize(n, x)` on a byte vector: truncate to `n` when shorter,
else pad with `x`. -/
def vecResize (l : List Nat) (n : Nat) (x : Nat) : List Nat :=
  if n ≤ l.length then l.take n
  else l ++ List.replicate (n - l.length) x

/-- Runs `n` successive `self.push(value.clone())` calls, as in the grow loop
of `DataBuffer::resize`. -/
def pushN (t : RType) (x : List Nat) : Nat → DataBuffer → DataBuffer
  | 0, b => b
  | n + 1, b => pushN t x n (push t x b).1

/-- Models `DataBuffer::resize::<T>(new_len, value)`: `check_ref` first; on a
grow (`new_len >= len`) it pushes `new_len - len` clones of `value`; on a
shrink it truncates the byte vector to `new_len * size_of::<T>()`
bytes. -/
def resize (t : RType) (new_len : Nat) (value : List Nat) (b : DataBuffer) :
    DataBuffer × Bool :=
  if t.tid = b.element_type_id then
    if b.len ≤ new_len then (pushN t value (new_len - b.len) b, true)
    else ({ b with data := vecResize b.data (new_len * t.size) 0 }, true)
  else (b, false)

/-- Models `DataBuffer::copy_from_slice::<T>(slice)`: panics (`none`) on a
zero-sized `T`; otherwise resizes the byte store to
`slice.len() * size_of::<T>()` bytes and overwrites it with the slice's
bytes, setting the element size and token to `T`'s. -/
def copy_from_slice (t : RType) (s : List (List Nat)) (_b : DataBuffer) :
    Option DataBuffer :=
  if t.size = 0 then none
  else some ⟨vecResize s.flatten (s.length * t.size) 0, t.size, t.tid⟩

/-- Models `DataBuffer::append(buf)`: when the two buffers' type tokens are
equal, moves `buf`'s bytes to the end of `self` and leaves `buf` empty
(element size and token untouched); otherwise both are unchanged and the
flag is `false`. -/
def append (a b : DataBuffer) : (DataBuffer × DataBuffer) × Bool :=
  if b.element_type_id = a.element_type_id then
    (({ a with data := a.data ++ b.data }, { b with data := [] }), true)
  else ((a, b), false)

/-- Models `DataBuffer::rotate_left(mid)`: rotates the bytes left by
`mid * element_size`; `slice::rotate_left` panics (`none`) when that
exceeds the byte length. -/
def rotate_left (mid : Nat) (b : DataBuffer) : Option DataBuffer :=
  if mid * b.element_size ≤ b.data.length then
    some { b with
      data := b.data.drop (mid * b.element_size) ++ b.data.take (mid * b.element_size) }
  else none

/-- Models `DataBuffer::rotate_right(k)`: rotates the bytes right by
`k * element_size`. -/
def rotate_right (k : Nat) (b : DataBuffer) : Option DataBuffer :=
  if k * b.element_size ≤ b.data.length then
    some { b with
      data := b.data.drop (b.data.length - k * b.element_size) ++
        b.data.take (b.data.length - k * b.element_size) }
  else none

/-- The `DataBuffer` representation invariant from the spec: the element
size is strictly positive and the byte length is an exact multiple of
it. -/
def Invariant (b : DataBuffer) : Prop :=
  0 < b.element_size ∧ b.data.length % b.element_size = 0

instance (b : DataBuffer) : Decidable (Invariant b) := by
  unfold Invariant; infer_instance

/-! Dispatch wrappers from `src/traits.rs`.  Each wrapper holds one
function pointer, modelled as its address (a `Nat`); `eq` is the
`PartialEq::eq` the `impl_fn_wrapper!` macro generates, which ignores
both arguments and returns `true`. -/

/-- Models `CloneFn` wrapper over `CloneFnType`. -/
structure CloneFn where
  ptr : Nat
deriving DecidableEq, Repr

/-- Models `PartialEq::eq` for `CloneFn`. -/
def CloneFn.eq (_a _b : CloneFn) : Bool := true

/-- Models `CloneFromFn` wrapper over `CloneFromFnType`. -/
structure CloneFromFn where
  ptr : Nat
deriving DecidableEq, Repr

/-- Models `PartialEq::eq` for `CloneFromFn`. -/
def CloneFromFn.eq (_a _b : CloneFromFn) : Bool := true

/-- Models `EqFn` wrapper over `EqFnType`. -/
structure EqFn where
  ptr : Nat
deriving DecidableEq, Repr

/-- Models `PartialEq::eq` for `EqFn`. -/
def EqFn.eq (_a _b : EqFn) : Bool := true

/-- Models `HashFn` wrapper over `HashFnType`. -/
structure HashFn where
  ptr : Nat
deriving DecidableEq, Repr

/-- Models `PartialEq::eq` for `HashFn`. -/
def HashFn.eq (_a _b : HashFn) : Bool := true

/-- Models `FmtFn` wrapper over `FmtFnType`. -/
structure FmtFn where
  ptr : Nat
deriving DecidableEq, Repr

/-- Models `PartialEq::eq` for `FmtFn`. -/
def FmtFn.eq (_a _b : FmtFn) : Bool := true

/-- Models `DropFn` wrapper over `DropFnType`. -/
structure DropFn where
  ptr : Nat
deriving DecidableEq, Repr

/-- Models `PartialEq::eq` for `DropFn`. -/
def DropFn.eq (_a _b : DropFn) : Bool := true

/-! Helper lemmas shared by several of the claim theorems. -/

/-- Concatenating a vector of `s`-byte elements yields `v.length * s`
bytes. -/
theorem flatten_length_uniform (s : Nat) (v : List (List Nat))
    (hv : ∀ x ∈ v, x.length = s) : v.flatten.length = v.length * s := by
  induction v with
  | nil => simp
  | cons a v ih =>
    have ha : a.length = s := hv a (List.mem_cons_self a v)
    have ih' := ih fun x hx => hv x (List.mem_cons_of_mem a hx)
    simp only [List.flatten_cons, List.length_append, List.length_cons, ha, ih']
    ring

/-- Reading back `v.length` chunks of size `s` from the concatenation of
a vector of `s`-byte elements recovers the vector. -/
theorem readChunks_flatten (s : Nat) (v : List (List Nat))
    (hv : ∀ x ∈ v, x.length = s) : readChunks s v.length v.flatten = v := by
  induction v with
  | nil => rfl
  | cons a v ih =>
    have ha : a.length = s := hv a (List.mem_cons_self a v)
    have ih' := ih fun x hx => hv x (List.mem_cons_of_mem a hx)
    simp only [List.length_cons, List.flatten_cons, readChunks]
    rw [List.take_left' ha, List.drop_left' ha, ih']

/-- Models `vecResize` always produces a list of exactly the requested
length. -/
theorem vecResize_length (l : List Nat) (n : Nat) (x : Nat) :
    (vecResize l n x).length = n := by
  unfold vecResize
  by_cases h : n ≤ l.length
  · simp [h]
  · simp [h]; omega

/-- Resizing a list to its own length is the identity. -/
theorem vecResize_self (l : List Nat) (x : Nat) : vecResize l l.length x = l := by
  simp [vecResize]

/-- Models `push_bytes` never changes the element size or the type token. -/
theorem push_bytes_fields (bytes : List Nat) (b : DataBuffer) :
    (push_bytes bytes b).1.element_size = b.element_size ∧
      (push_bytes bytes b).1.element_type_id = b.element_type_id := by
  unfold push_bytes
  by_cases h : bytes.length = b.element_size <;> simp [h]

/-- Models `push` never changes the element size or the type token. -/
theorem push_fields (t : RType) (x : List Nat) (b : DataBuffer) :
    (push t x b).1.element_size = b.element_size ∧
      (push t x b).1.element_type_id = b.element_type_id := by
  unfold push
  by_cases h : t.tid = b.element_type_id <;> simp [h, push_bytes_fields]

/-- Models `push_bytes` preserves the buffer invariant: it only appends when the
payload length equals the element size. -/
theorem push_bytes_invariant (bytes : List Nat) (b : DataBuffer)
    (h : Invariant b) : Invariant (push_bytes bytes b).1 := by
  obtain ⟨h1, h2⟩ := h
  unfold push_bytes
  by_cases hb : bytes.length = b.element_size <;>
    simp [hb, Invariant, h1, h2, List.length_append, Nat.add_mod, Nat.mod_self]

/-- Models `push` preserves the buffer invariant. -/
theorem push_invariant (t : RType) (x : List Nat) (b : DataBuffer)
    (h : Invariant b) : Invariant (push t x b).1 := by
  unfold push
  by_cases ht : t.tid = b.element_type_id <;> simp [ht, push_bytes_invariant, h]

/-- Models `pushN` never changes the element size or the type token. -/
theorem pushN_fields (t : RType) (x : List Nat) :
    ∀ (n : Nat) (b : DataBuffer),
      (pushN t x n b).element_size = b.element_size ∧
        (pushN t x n b).element_type_id = b.element_type_id := by
  intro n
  induction n with
  | zero => intro b; exact ⟨rfl, rfl⟩
  | succ n ih =>
    intro b
    have h := ih (push t x b).1
    have h2 := push_fields t x b
    exact ⟨(h.1).trans h2.1, (h.2).trans h2.2⟩

/-- Models `pushN` preserves the buffer invariant. -/
theorem pushN_invariant (t : RType) (x : List Nat) :
    ∀ (n : Nat) (b : DataBuffer), Invariant b → Invariant (pushN t x n b) := by
  intro n
  induction n with
  | zero => intro b h; exact h
  | succ n ih => intro b h; exact ih (push t x b).1 (push_invariant t x b h)

/-- When the token matches and the value has the element's byte size,
`n` pushes append `n` copies of the value's bytes. -/
theorem pushN_data_of_match (t : RType) (x : List Nat) :
    ∀ (n : Nat) (b : DataBuffer), t.tid = b.element_type_id →
      x.length = b.element_size →
      pushN t x n b = { b with data := b.data ++ (List.replicate n x).flatten } := by
  intro n
  induction n with
  | zero => intro b _ _; simp [pushN]
  | succ n ih =>
    intro b hm hx
    have hpush : (push t x b).1 = { b with data := b.data ++ x } := by
      simp [push, push_bytes, hm, hx]
    show pushN t x n (push t x b).1 = _
    rw [hpush, ih { b with data := b.data ++ x } hm hx]
    simp [List.replicate_succ, List.append_assoc]

/-!  Claim theorems. -/

/-- C1: for every element type with `size_of > 0` and every vector `v` of
well-formed elements of that type, `from_vec` succeeds and `into_vec` at
the same type returns `Some` of a vector equal to `v`, element for
element. -/
theorem C1_from_vec_into_vec_roundtrip (t : RType) (v : List (List Nat))
    (hsz : 0 < t.size) (hv : ∀ x ∈ v, x.length = t.size) :
    ∃ b, from_vec t v = some b ∧ into_vec t b = some v := by
  have h0 : t.size ≠ 0 := Nat.pos_iff_ne_zero.mp hsz
  refine ⟨⟨v.flatten, t.size, t.tid⟩, ?_, ?_⟩
  · simp [from_vec, h0]
  · simp only [into_vec, if_pos]
    rw [flatten_length_uniform t.size v hv, Nat.mul_div_cancel _ hsz,
      readChunks_flatten t.size v hv]

/-- Witness for C1 at a concrete one-byte type and two-element vector. -/
theorem C1_witness :
    ∃ b, from_vec ⟨0, 1⟩ [[5], [7]] = some b ∧ into_vec ⟨0, 1⟩ b = some [[5], [7]] :=
  C1_from_vec_into_vec_roundtrip ⟨0, 1⟩ [[5], [7]] (by decide) (by decide)

/-- C2: `len()` is by definition the byte length of `as_bytes()` divided
by `element_size()`, and every public operation preserves the invariant
that the element size is strictly positive and the byte length is an
exact multiple of it.  Operations pairing two type views carry the Rust
type-system fact that equal `TypeId` tokens mean equal `size_of`. -/
theorem C2_invariant_preserved_by_all_operations :
    (∀ b : DataBuffer, b.len = b.as_bytes.length / b.element_size) ∧
    (∀ t b, with_type t = some b → Invariant b) ∧
    (∀ t n b, with_capacity t n = some b → Invariant b) ∧
    (∀ b, Invariant b → Invariant (with_buffer_type b)) ∧
    (∀ t v b, (∀ x ∈ v, x.length = t.size) → from_vec t v = some b → Invariant b) ∧
    (∀ t s b, (∀ x ∈ s, x.length = t.size) → from_slice t s = some b → Invariant b) ∧
    (∀ t n d b, d.length = t.size → with_size t n d = some b → Invariant b) ∧
    (∀ t x b, Invariant b → Invariant (push t x b).1) ∧
    (∀ bs b, Invariant b → Invariant (push_bytes bs b).1) ∧
    (∀ bs b, Invariant b → Invariant (extend_bytes bs b).1) ∧
    (∀ bs b, Invariant b → Invariant (append_bytes bs b).1.1) ∧
    (∀ b, Invariant b → Invariant (clear b)) ∧
    (∀ t d b, Invariant b → (t.tid = b.element_type_id → t.size = b.element_size) →
      d.length = t.size → Invariant (fill t d b).1) ∧
    (∀ t n v b, Invariant b → (t.tid = b.element_type_id → t.size = b.element_size) →
      Invariant (resize t n v b).1) ∧
    (∀ t s b b2, copy_from_slice t s b = some b2 → Invariant b2) ∧
    (∀ a b, Invariant a → Invariant b →
      (a.element_type_id = b.element_type_id → a.element_size = b.element_size) →
      Invariant (append a b).1.1 ∧ Invariant (append a b).1.2) ∧
    (∀ k b b2, Invariant b → rotate_left k b = some b2 → Invariant b2) ∧
    (∀ k b b2, Invariant b → rotate_right k b = some b2 → Invariant b2) := by
  refine ⟨fun _ => rfl, ?_, ?_, ?_, ?_, ?_, ?_, push_invariant, push_bytes_invariant,
    ?_, ?_, ?_, ?_, ?_, ?_, ?_, ?_, ?_⟩
  · intro t b h
    unfold with_type at h
    split at h
    · exact absurd h (by simp)
    · cases Option.some.inj h
      next h0 => exact ⟨Nat.pos_of_ne_zero h0, Nat.zero_mod _⟩
  · intro t n b h
    unfold with_capacity at h
    split at h
    · exact absurd h (by simp)
    · cases Option.some.inj h
      next h0 => exact ⟨Nat.pos_of_ne_zero h0, Nat.zero_mod _⟩
  · intro b hb
    exact ⟨hb.1, Nat.zero_mod _⟩
  · intro t v b hv h
    unfold from_vec at h
    split at h
    · exact absurd h (by simp)
    · cases Option.some.inj h
      next h0 =>
        refine ⟨Nat.pos_of_ne_zero h0, ?_⟩
        show v.flatten.length % t.size = 0
        rw [flatten_length_uniform t.size v hv]
        exact Nat.mul_mod_left _ _
  · intro t s b hs h
    unfold from_slice from_vec at h
    split at h
    · exact absurd h (by simp)
    · cases Option.some.inj h
      next h0 =>
        refine ⟨Nat.pos_of_ne_zero h0, ?_⟩
        show s.flatten.length % t.size = 0
        rw [flatten_length_uniform t.size s hs]
        exact Nat.mul_mod_left _ _
  · intro t n d b hd h
    unfold with_size from_vec at h
    split at h
    · exact absurd h (by simp)
    · cases Option.some.inj h
      next h0 =>
        refine ⟨Nat.pos_of_ne_zero h0, ?_⟩
        show (List.replicate n d).flatten.length % t.size = 0
        rw [flatten_length_uniform t.size _ (fun x hx => by
          rw [List.eq_of_mem_replicate hx]; exact hd)]
        exact Nat.mul_mod_left _ _
  · intro bs b hb
    obtain ⟨h1, h2⟩ := hb
    unfold extend_bytes
    by_cases h : bs.length % b.element_size = 0 <;>
      simp [h, Invariant, h1, h2, List.length_append, Nat.add_mod]
  · intro bs b hb
    obtain ⟨h1, h2⟩ := hb
    unfold append_bytes
    by_cases h : bs.length % b.element_size = 0 <;>
      simp [h, Invariant, h1, h2, List.length_append, Nat.add_mod]
  · intro b hb
    exact ⟨hb.1, Nat.zero_mod _⟩
  · intro t d b hb hcons hd
    obtain ⟨h1, h2⟩ := hb
    by_cases ht : t.tid = b.element_type_id
    · have hsz : t.size = b.element_size := hcons ht
      have hL : b.len * b.element_size = b.data.length :=
        Nat.div_mul_cancel (Nat.dvd_of_mod_eq_zero h2)
      have hfl : ((List.replicate b.len d).flatten).length = b.len * t.size := by
        rw [flatten_length_uniform t.size _ (fun x hx => by
          rw [List.eq_of_mem_replicate hx]; exact hd)]
        simp
      refine ⟨by simp [fill, ht]; exact h1, ?_⟩
      show ((fill t d b).1.data).length % (fill t d b).1.element_size = 0
      simp only [fill, ht, if_pos]
      show ((List.replicate b.len d).flatten ++
        b.data.drop (b.len * t.size)).length % b.element_size = 0
      rw [List.length_append, hfl, List.length_drop, hsz, hL]
      simp [h2]
    · simp only [fill, ht, if_neg, ite_false]
      exact ⟨h1, h2⟩
  · intro t n v b hb hcons
    obtain ⟨h1, h2⟩ := hb
    by_cases ht : t.tid = b.element_type_id
    · have hsz : t.size = b.element_size := hcons ht
      by_cases hg : b.len ≤ n
      · simp only [resize, ht, if_pos, hg, ite_true]
        exact pushN_invariant t v (n - b.len) b ⟨h1, h2⟩
      · simp only [resize, ht, if_pos, hg, ite_false]
        refine ⟨h1, ?_⟩
        show (vecResize b.data (n * t.size) 0).length % b.element_size = 0
        rw [vecResize_length, hsz]
        exact Nat.mul_mod_left _ _
    · simp only [resize, ht, ite_false]
      exact ⟨h1, h2⟩
  · intro t s b b2 h
    unfold copy_from_slice at h
    split at h
    · exact absurd h (by simp)
    · cases Option.some.inj h
      next h0 =>
        refine ⟨Nat.pos_of_ne_zero h0, ?_⟩
        show (vecResize s.flatten (s.length * t.size) 0).length % t.size = 0
        rw [vecResize_length]
        exact Nat.mul_mod_left _ _
  · intro a b ha hb hcons
    obtain ⟨ha1, ha2⟩ := ha
    obtain ⟨hb1, hb2⟩ := hb
    by_cases hc : b.element_type_id = a.element_type_id
    · have hsz : a.element_size = b.element_size := hcons hc.symm
      constructor
      · refine ⟨by simp [append, hc]; exact ha1, ?_⟩
        show ((append a b).1.1.data).length % (append a b).1.1.element_size = 0
        simp only [append, hc, if_pos]
        show (a.data ++ b.data).length % a.element_size = 0
        rw [List.length_append, Nat.add_mod, ha2, hsz, hb2]
        simp
      · refine ⟨by simp [append, hc]; exact hb1, ?_⟩
        simp only [append, hc, if_pos]
        exact Nat.zero_mod _
    · simp only [append, hc, ite_false]
      exact ⟨⟨ha1, ha2⟩, ⟨hb1, hb2⟩⟩
  · intro k b b2 hb h
    obtain ⟨h1, h2⟩ := hb
    unfold rotate_left at h
    split at h
    · cases Option.some.inj h
      next hk =>
        refine ⟨h1, ?_⟩
        show (b.data.drop (k * b.element_size) ++
          b.data.take (k * b.element_size)).length % b.element_size = 0
        have hlen : (b.data.drop (k * b.element_size) ++
            b.data.take (k * b.element_size)).length = b.data.length := by
          rw [List.length_append, List.length_drop, List.length_take]
          omega
        rw [hlen]
        exact h2
    · exact absurd h (by simp)
  · intro k b b2 hb h
    obtain ⟨h1, h2⟩ := hb
    unfold rotate_right at h
    split at h
    · cases Option.some.inj h
      next hk =>
        refine ⟨h1, ?_⟩
        show (b.data.drop (b.data.length - k * b.element_size) ++
          b.data.take (b.data.length - k * b.element_size)).length %
            b.element_size = 0
        have hlen : (b.data.drop (b.data.length - k * b.element_size) ++
            b.data.take (b.data.length - k * b.element_size)).length
              = b.data.length := by
          rw [List.length_append, List.length_drop, List.length_take]
          omega
        rw [hlen]
        exact h2
    · exact absurd h (by simp)

/-- Witness for C2: the `push` clause at a concrete matching push onto a
one-byte-element buffer. -/
theorem C2_witness : Invariant (push ⟨0, 1⟩ [7] ⟨[5], 1, 0⟩).1 :=
  C2_invariant_preserved_by_all_operations.2.2.2.2.2.2.2.1 ⟨0, 1⟩ [7] ⟨[5], 1, 0⟩
    (by decide)

/-- C3: when the requested type token differs from the stored one, every
typed operation (`push`, in-range `get`/`get_ref`/`get_mut`, `as_slice`,
`as_mut_slice`, `iter`, `fill`, `resize`, `into_vec`) returns the soft
no-match result (`None`, here `some none` for the `get` family, whose
outer layer models the bounds panic) and leaves the buffer completely
unchanged — never a panic. -/
theorem C3_type_mismatch_soft_noop (t : RType) (b : DataBuffer) (i : Nat)
    (x d v : List Nat) (n : Nat)
    (hne : t.tid ≠ b.element_type_id) (hi : i < b.len) :
    push t x b = (b, false) ∧
    get t i b = some none ∧
    get_ref t i b = some none ∧
    get_mut t i b = some none ∧
    as_slice t b = none ∧
    as_mut_slice t b = none ∧
    iter t b = none ∧
    fill t d b = (b, false) ∧
    resize t n v b = (b, false) ∧
    into_vec t b = none := by
  simp [push, get, get_ref, get_mut, as_slice, as_mut_slice, iter, fill, resize,
    into_vec, hne, hi]

/-- Witness for C3: a one-element `u32`-like buffer probed with a
different type token. -/
theorem C3_witness :
    push ⟨7, 4⟩ [1, 2, 3, 4] ⟨[0, 0, 0, 0], 4, 3⟩ = (⟨[0, 0, 0, 0], 4, 3⟩, false) ∧
    get ⟨7, 4⟩ 0 ⟨[0, 0, 0, 0], 4, 3⟩ = some none ∧
    get_ref ⟨7, 4⟩ 0 ⟨[0, 0, 0, 0], 4, 3⟩ = some none ∧
    get_mut ⟨7, 4⟩ 0 ⟨[0, 0, 0, 0], 4, 3⟩ = some none ∧
    as_slice ⟨7, 4⟩ ⟨[0, 0, 0, 0], 4, 3⟩ = none ∧
    as_mut_slice ⟨7, 4⟩ ⟨[0, 0, 0, 0], 4, 3⟩ = none ∧
    iter ⟨7, 4⟩ ⟨[0, 0, 0, 0], 4, 3⟩ = none ∧
    fill ⟨7, 4⟩ [9, 9, 9, 9] ⟨[0, 0, 0, 0], 4, 3⟩ = (⟨[0, 0, 0, 0], 4, 3⟩, false) ∧
    resize ⟨7, 4⟩ 2 [9, 9, 9, 9] ⟨[0, 0, 0, 0], 4, 3⟩ = (⟨[0, 0, 0, 0], 4, 3⟩, false) ∧
    into_vec ⟨7, 4⟩ ⟨[0, 0, 0, 0], 4, 3⟩ = none :=
  C3_type_mismatch_soft_noop ⟨7, 4⟩ ⟨[0, 0, 0, 0], 4, 3⟩ 0 [1, 2, 3, 4] [9, 9, 9, 9]
    [9, 9, 9, 9] 2 (by decide) (by decide)

/-- C4, counterexample to the claim as stated: on a buffer with element
size 1, the 2-byte payload `[0, 0]` has length a multiple of the element
size, yet `push_bytes` rejects it and leaves the buffer unchanged — the
code requires the payload length to EQUAL `element_size`, not merely
divide evenly. -/
theorem C4_counterexample :
    ([0, 0] : List Nat).length % (DataBuffer.mk [] 1 0).element_size = 0 ∧
      push_bytes [0, 0] ⟨[], 1, 0⟩ = (⟨[], 1, 0⟩, false) := by
  decide

/-- C4 amended: `push_bytes` succeeds (appends the bytes) iff the payload
length EQUALS `element_size`, while `extend_bytes` and `append_bytes`
succeed iff the payload length is a multiple of `element_size`; on
failure each returns the no-match result and leaves the buffer — and,
for `append_bytes`, the source vector — unchanged. -/
theorem C4_raw_byte_entry_points (bytes : List Nat) (b : DataBuffer)
    (_hs : 0 < b.element_size) :
    (push_bytes bytes b = ({ b with data := b.data ++ bytes }, true) ↔
      bytes.length = b.element_size) ∧
    (bytes.length ≠ b.element_size → push_bytes bytes b = (b, false)) ∧
    (extend_bytes bytes b = ({ b with data := b.data ++ bytes }, true) ↔
      bytes.length % b.element_size = 0) ∧
    (bytes.length % b.element_size ≠ 0 → extend_bytes bytes b = (b, false)) ∧
    (append_bytes bytes b = (({ b with data := b.data ++ bytes }, []), true) ↔
      bytes.length % b.element_size = 0) ∧
    (bytes.length % b.element_size ≠ 0 → append_bytes bytes b = ((b, bytes), false)) := by
  have hne : b.data ++ bytes = b.data → bytes = [] := by
    intro h
    have := congrArg List.length h
    simp at this
    exact this
  by_cases h1 : bytes.length = b.element_size <;>
    by_cases h2 : bytes.length % b.element_size = 0 <;>
      simp_all [push_bytes, extend_bytes, append_bytes, Nat.mod_self]

/-- Witness for C4 at a concrete buffer: `push_bytes` with a payload of
exactly the element size succeeds. -/
theorem C4_witness :
    (push_bytes [5] ⟨[], 1, 9⟩ = (⟨[] ++ [5], 1, 9⟩, true) ↔
      ([5] : List Nat).length = 1) :=
  (C4_raw_byte_entry_points [5] ⟨[], 1, 9⟩ (by decide)).1

/-- C5: with a matching token, `resize(n, default)` always succeeds; when
`n` is at least the current length it appends exactly `n - len` copies of
the default after the unchanged old bytes; when `n` is smaller it
truncates the byte store to the surviving elements' bytes; in both cases
the resulting length is `n` and the element size and token are
unchanged. -/
theorem C5_resize_grow_or_truncate (t : RType) (n : Nat) (value : List Nat)
    (b : DataBuffer) (hm : t.tid = b.element_type_id)
    (hts : t.size = b.element_size) (hval : value.length = t.size)
    (hinv : Invariant b) :
    (resize t n value b).2 = true ∧
    (b.len ≤ n →
      (resize t n value b).1.data =
        b.data ++ (List.replicate (n - b.len) value).flatten) ∧
    (n < b.len → (resize t n value b).1.data = b.data.take (n * t.size)) ∧
    (resize t n value b).1.len = n ∧
    (resize t n value b).1.element_size = b.element_size ∧
    (resize t n value b).1.element_type_id = b.element_type_id := by
  obtain ⟨hpos, hdvd⟩ := hinv
  have hL : b.len * b.element_size = b.data.length :=
    Nat.div_mul_cancel (Nat.dvd_of_mod_eq_zero hdvd)
  have hval' : value.length = b.element_size := hts ▸ hval
  by_cases hg : b.len ≤ n
  · have hres : resize t n value b = (pushN t value (n - b.len) b, true) := by
      simp [resize, hm, hg]
    have hdata := pushN_data_of_match t value (n - b.len) b hm hval'
    have hflat : ((List.replicate (n - b.len) value).flatten).length
        = (n - b.len) * b.element_size := by
      rw [flatten_length_uniform b.element_size _ (fun x hx => by
        rw [List.eq_of_mem_replicate hx]; exact hval')]
      simp
    have hnum : b.data.length + (n - b.len) * b.element_size = n * b.element_size := by
      rw [← hL, ← Nat.add_mul]
      congr 1
      omega
    refine ⟨by rw [hres], fun _ => by rw [hres, hdata], fun hlt => absurd hlt (by omega),
      ?_, ?_, ?_⟩
    · rw [hres]
      show (pushN t value (n - b.len) b).len = n
      rw [hdata]
      show ((b.data ++ (List.replicate (n - b.len) value).flatten).length) /
        b.element_size = n
      rw [List.length_append, hflat, hnum, Nat.mul_div_cancel _ hpos]
    · rw [hres]; exact (pushN_fields t value (n - b.len) b).1
    · rw [hres]; exact (pushN_fields t value (n - b.len) b).2
  · have hlt : n < b.len := Nat.lt_of_not_le hg
    have hle : n * t.size ≤ b.data.length := by
      rw [hts, ← hL]
      exact Nat.mul_le_mul_right _ (by omega)
    have hres : resize t n value b =
        ({ b with data := vecResize b.data (n * t.size) 0 }, true) := by
      simp [resize, hm, hg]
    have hdata : vecResize b.data (n * t.size) 0 = b.data.take (n * t.size) := by
      simp [vecResize, hle]
    refine ⟨by rw [hres], fun hgrow => absurd hgrow (by omega), fun _ => ?_, ?_, ?_, ?_⟩
    · rw [hres]
      show vecResize b.data (n * t.size) 0 = b.data.take (n * t.size)
      exact hdata
    · rw [hres]
      show (vecResize b.data (n * t.size) 0).length / b.element_size = n
      rw [vecResize_length, hts, Nat.mul_div_cancel _ hpos]
    · rw [hres]
    · rw [hres]

/-- Witness for C5: growing a one-element byte buffer to three
elements. -/
theorem C5_witness :
    (resize ⟨0, 1⟩ 3 [9] ⟨[5], 1, 0⟩).2 = true ∧
      (resize ⟨0, 1⟩ 3 [9] ⟨[5], 1, 0⟩).1.len = 3 :=
  ⟨(C5_resize_grow_or_truncate ⟨0, 1⟩ 3 [9] ⟨[5], 1, 0⟩ rfl rfl rfl (by decide)).1,
    (C5_resize_grow_or_truncate ⟨0, 1⟩ 3 [9] ⟨[5], 1, 0⟩ rfl rfl rfl
      (by decide)).2.2.2.1⟩

/-- C6: `append` with equal type tokens moves all of the source buffer's
bytes to the end of the target (old target contents followed by old
source contents, hence all elements in their original order), leaves the
source empty with its token and element size unchanged, and reports
success; with different tokens it reports failure and leaves both
buffers unchanged. -/
theorem C6_append_moves_or_rejects (a b : DataBuffer) :
    (b.element_type_id = a.element_type_id →
      append a b =
        (({ a with data := a.data ++ b.data }, { b with data := [] }), true)) ∧
    (b.element_type_id ≠ a.element_type_id → append a b = ((a, b), false)) := by
  constructor <;> intro h <;> simp [append, h]

/-- Witness for C6: one matching and one mismatching concrete pair. -/
theorem C6_witness :
    append ⟨[1], 1, 0⟩ ⟨[2], 1, 0⟩ = ((⟨[1, 2], 1, 0⟩, ⟨[], 1, 0⟩), true) ∧
    append ⟨[1], 1, 0⟩ ⟨[2], 1, 5⟩ = ((⟨[1], 1, 0⟩, ⟨[2], 1, 5⟩), false) := by
  exact ⟨(C6_append_moves_or_rejects ⟨[1], 1, 0⟩ ⟨[2], 1, 0⟩).1 rfl,
    (C6_append_moves_or_rejects ⟨[1], 1, 0⟩ ⟨[2], 1, 5⟩).2 (by decide)⟩

/-- C7: every construction entry point that takes an element type
(`with_type`, `with_capacity`, `with_size`, `from_vec`, `from_slice`, and
re-typing via `copy_from_slice`) hits the fatal zero-size assertion
(modelled as `none`) when the element type has size zero; none silently
succeeds. -/
theorem C7_zero_sized_type_panics (t : RType) (n : Nat) (d : List Nat)
    (v s : List (List Nat)) (b : DataBuffer) (h : t.size = 0) :
    with_type t = none ∧ with_capacity t n = none ∧ with_size t n d = none ∧
    from_vec t v = none ∧ from_slice t s = none ∧ copy_from_slice t s b = none := by
  simp [with_type, with_capacity, with_size, from_vec, from_slice, copy_from_slice, h]

/-- Witness for C7 at a concrete zero-sized type. -/
theorem C7_witness :
    with_type ⟨3, 0⟩ = none ∧ with_capacity ⟨3, 0⟩ 2 = none ∧
    with_size ⟨3, 0⟩ 2 [] = none ∧ from_vec ⟨3, 0⟩ [[]] = none ∧
    from_slice ⟨3, 0⟩ [[]] = none ∧ copy_from_slice ⟨3, 0⟩ [[]] ⟨[], 1, 0⟩ = none :=
  C7_zero_sized_type_panics ⟨3, 0⟩ 2 [] [[]] [[]] ⟨[], 1, 0⟩ rfl

/-- C8: for any current buffer and any non-zero-sized type, `copy_from_slice`
unconditionally succeeds and re-types the buffer: afterwards the token is
the slice type's token, the element size is that type's size, the length
is the slice's length, and the bytes equal the slice's bytes; and it is
the only operation that changes the recorded token — `push`,
`push_bytes`, `extend_bytes`, `append_bytes`, `fill`, `resize`, `clear`
and `append` all leave each buffer's token as it was. -/
theorem C8_copy_from_slice_retypes (t : RType) (s : List (List Nat)) (b : DataBuffer)
    (hsz : 0 < t.size) (hs : ∀ x ∈ s, x.length = t.size) :
    copy_from_slice t s b = some ⟨s.flatten, t.size, t.tid⟩ ∧
    (DataBuffer.mk s.flatten t.size t.tid).element_type_id = t.tid ∧
    (DataBuffer.mk s.flatten t.size t.tid).element_size = t.size ∧
    (DataBuffer.mk s.flatten t.size t.tid).len = s.length ∧
    (DataBuffer.mk s.flatten t.size t.tid).as_bytes = s.flatten ∧
    (∀ t2 x b2, ((push t2 x b2).1).element_type_id = b2.element_type_id) ∧
    (∀ bs b2, ((push_bytes bs b2).1).element_type_id = b2.element_type_id) ∧
    (∀ bs b2, ((extend_bytes bs b2).1).element_type_id = b2.element_type_id) ∧
    (∀ bs b2, ((append_bytes bs b2).1.1).element_type_id = b2.element_type_id) ∧
    (∀ t2 d b2, ((fill t2 d b2).1).element_type_id = b2.element_type_id) ∧
    (∀ t2 m v2 b2, ((resize t2 m v2 b2).1).element_type_id = b2.element_type_id) ∧
    (∀ b2, (clear b2).element_type_id = b2.element_type_id) ∧
    (∀ a2 b2, ((append a2 b2).1.1).element_type_id = a2.element_type_id ∧
      ((append a2 b2).1.2).element_type_id = b2.element_type_id) := by
  have hflat : s.flatten.length = s.length * t.size := flatten_length_uniform t.size s hs
  have hres : vecResize s.flatten (s.length * t.size) 0 = s.flatten := by
    rw [← hflat]
    exact vecResize_self _ _
  refine ⟨?_, rfl, rfl, ?_, rfl, ?_, ?_, ?_, ?_, ?_, ?_, fun _ => rfl, ?_⟩
  · simp [copy_from_slice, Nat.pos_iff_ne_zero.mp hsz, hres]
  · show s.flatten.length / t.size = s.length
    rw [hflat, Nat.mul_div_cancel _ hsz]
  · intro t2 x b2
    exact (push_fields t2 x b2).2
  · intro bs b2
    exact (push_bytes_fields bs b2).2
  · intro bs b2
    unfold extend_bytes
    by_cases h : bs.length % b2.element_size = 0 <;> simp [h]
  · intro bs b2
    unfold append_bytes
    by_cases h : bs.length % b2.element_size = 0 <;> simp [h]
  · intro t2 d b2
    unfold fill
    by_cases h : t2.tid = b2.element_type_id <;> simp [h]
  · intro t2 m v2 b2
    unfold resize
    by_cases h : t2.tid = b2.element_type_id
    · by_cases hg : b2.len ≤ m <;> simp [h, hg, pushN_fields]
    · simp [h]
  · intro a2 b2
    unfold append
    by_cases h : b2.element_type_id = a2.element_type_id <;> simp [h]

/-- Witness for C8: re-typing a one-byte-element buffer to a two-byte
element type. -/
theorem C8_witness :
    copy_from_slice ⟨4, 2⟩ [[1, 2], [3, 4]] ⟨[9], 1, 0⟩ =
      some ⟨[1, 2, 3, 4], 2, 4⟩ := by
  have h := (C8_copy_from_slice_retypes ⟨4, 2⟩ [[1, 2], [3, 4]] ⟨[9], 1, 0⟩
    (by decide) (by decide)).1
  exact h

/-- C9: for each dispatch wrapper kind, the wrapper's `PartialEq::eq`
returns `true` for any two wrappers of that kind, regardless of which
function pointers they hold. -/
theorem C9_wrapper_eq_always_true :
    (∀ a b : CloneFn, CloneFn.eq a b = true) ∧
    (∀ a b : CloneFromFn, CloneFromFn.eq a b = true) ∧
    (∀ a b : EqFn, EqFn.eq a b = true) ∧
    (∀ a b : HashFn, HashFn.eq a b = true) ∧
    (∀ a b : FmtFn, FmtFn.eq a b = true) ∧
    (∀ a b : DropFn, DropFn.eq a b = true) :=
  ⟨fun _ _ => rfl, fun _ _ => rfl, fun _ _ => rfl, fun _ _ => rfl,
    fun _ _ => rfl, fun _ _ => rfl⟩

/-- Witness for C9: wrappers holding distinct function pointers still
compare equal, for each kind. -/
theorem C9_witness :
    CloneFn.eq ⟨0⟩ ⟨1⟩ = true ∧ CloneFromFn.eq ⟨0⟩ ⟨1⟩ = true ∧
    EqFn.eq ⟨0⟩ ⟨1⟩ = true ∧ HashFn.eq ⟨0⟩ ⟨1⟩ = true ∧
    FmtFn.eq ⟨0⟩ ⟨1⟩ = true ∧ DropFn.eq ⟨0⟩ ⟨1⟩ = true :=
  ⟨C9_wrapper_eq_always_true.1 ⟨0⟩ ⟨1⟩, C9_wrapper_eq_always_true.2.1 ⟨0⟩ ⟨1⟩,
    C9_wrapper_eq_always_true.2.2.1 ⟨0⟩ ⟨1⟩, C9_wrapper_eq_always_true.2.2.2.1 ⟨0⟩ ⟨1⟩,
    C9_wrapper_eq_always_true.2.2.2.2.1 ⟨0⟩ ⟨1⟩,
    C9_wrapper_eq_always_true.2.2.2.2.2 ⟨0⟩ ⟨1⟩⟩

/-- C10: `get`, `get_ref` and `get_mut` run the index bounds assertion
before the type-token check, so for any index at or past `len()` they
panic (the outer `none`) for every requested type, matching or not,
instead of returning the soft no-match result. -/
theorem C10_bounds_assert_before_type_check (t : RType) (i : Nat) (b : DataBuffer)
    (h : b.len ≤ i) :
    get t i b = none ∧ get_ref t i b = none ∧ get_mut t i b = none := by
  have h' : ¬i < b.len := Nat.not_lt.mpr h
  simp [get, get_ref, get_mut, h']

/-- Witness for C10: an out-of-range index on an empty buffer panics even
though the requested token (1) differs from the stored token (0). -/
theorem C10_witness :
    get ⟨1, 1⟩ 0 ⟨[], 1, 0⟩ = none ∧ get_ref ⟨1, 1⟩ 0 ⟨[], 1, 0⟩ = none ∧
      get_mut ⟨1, 1⟩ 0 ⟨[], 1, 0⟩ = none :=
  C10_bounds_assert_before_type_check ⟨1, 1⟩ 0 ⟨[], 1, 0⟩ (by decide)

end DataBufferModel
